import Mathlib

/-!
Formal model of `app.py` (DevOps Guardian / Kubernetes YAML Generator).

Strings are modelled as `List Char` (`Str`).  The Python string methods the
source uses (`strip`, `upper`, `lower`, `split`, `join`, `startswith`,
`endswith`) are modelled on the ASCII fragment the program manipulates.
The external generative-language call and `json.loads` are outside the
repository: the call is modelled by its outcome (`Except Str Str`) and the
JSON decoder by an arbitrary function `Str → Option DockerfileConfig`
passed as a parameter.
-/

abbrev Str := List Char

/-- Conversion from a Lean string literal to the `List Char` representation. -/
def s (x : String) : Str := x.toList

/-- Characters stripped by Python `str.strip()` (ASCII whitespace). -/
def pySpace (c : Char) : Bool :=
  c = ' ' || c = '\t' || c = '\n' || c = '\r' || c = '\x0b' || c = '\x0c'

/-- Python `str.lstrip()`: drop leading whitespace. -/
def stripLeft (x : Str) : Str := x.dropWhile pySpace

/-- Python `str.rstrip()`: drop trailing whitespace. -/
def stripRight : Str → Str
  | [] => []
  | c :: rest =>
    match stripRight rest with
    | [] => if pySpace c then [] else [c]
    | d :: ds => c :: d :: ds

/-- Python `str.strip()`: drop whitespace on both sides. -/
def pyStrip (x : Str) : Str := stripRight (stripLeft x)

/-- Python `str.upper()` on one ASCII character. -/
def upChar (c : Char) : Char :=
  if 'a' ≤ c ∧ c ≤ 'z' then Char.ofNat (c.toNat - 32) else c

/-- Python `str.lower()` on one ASCII character. -/
def lowChar (c : Char) : Char :=
  if 'A' ≤ c ∧ c ≤ 'Z' then Char.ofNat (c.toNat + 32) else c

/-- Python `str.upper()`. -/
def pyUpper (x : Str) : Str := x.map upChar

/-- Python `str.lower()`. -/
def pyLower (x : Str) : Str := x.map lowChar

/-- Python `str.startswith(pre)`: `startsWithB pre x` is true when `pre`
is an initial segment of `x`. -/
def startsWithB : Str → Str → Bool
  | [], _ => true
  | _ :: _, [] => false
  | a :: as, b :: bs => a == b && startsWithB as bs

/-- Python `str.endswith(suf)`: true when `suf` is a final segment of `x`. -/
def endsWithB (suf x : Str) : Bool := startsWithB suf.reverse x.reverse

/-- Python `str.split('\n')`: split into lines at newline characters. -/
def splitLines : Str → List Str
  | [] => [[]]
  | c :: rest =>
    if c = '\n' then [] :: splitLines rest
    else
      match splitLines rest with
      | [] => [[c]]
      | l :: ls => (c :: l) :: ls

/-- Python `sep.join(xs)`. -/
def joinSep (sep : Str) : List Str → Str
  | [] => []
  | [x] => x
  | x :: y :: ys => x ++ sep ++ joinSep sep (y :: ys)

/-- Shorthand for `'\n'.join(xs)`. -/
def joinNL (xs : List Str) : Str := joinSep ['\n'] xs

/-! ## File Type Classifier (`is_dockerfile`, app.py lines 176-183, and the
Guardian extension test, app.py line 216) -/

/-- The keyword list of `is_dockerfile` (app.py line 181). -/
def dockerfile_keywords : List Str :=
  [s "FROM", s "RUN", s "CMD", s "ENTRYPOINT", s "COPY", s "ADD",
   s "ENV", s "WORKDIR", s "EXPOSE"]

/-- The keyword scan of `is_dockerfile` (app.py lines 182-183):
`any(line.strip().startswith(tuple(dockerfile_keywords)) for line in
file_content.upper().split('\n'))`. -/
def hasDockerKeywordLine (file_content : Str) : Bool :=
  (splitLines (pyUpper file_content)).any
    (fun line => dockerfile_keywords.any (fun k => startsWithB k (pyStrip line)))

/-- `is_dockerfile` (app.py lines 176-183). -/
def is_dockerfile (file_name file_content : Str) : Bool :=
  (pyLower file_name == s "dockerfile") || hasDockerKeywordLine file_content

/-- The extension allow-list of the Guardian upload branch (app.py line 216). -/
def supportedExtensions : List Str :=
  [s ".yaml", s ".yml", s ".json", s ".tf", s ".ini", s ".conf"]

inductive FileClass where
  | ConfigFile
  | Dockerfile
  | Unsupported
deriving DecidableEq, Repr

/-- The classifier of spec section 4.1, combining the two classification
tests present in the source: the Dockerfile test `is_dockerfile`
(app.py lines 176-183) and the extension test of the Guardian upload branch
(`file_name.endswith((".yaml", ".yml", ".json", ".tf", ".ini", ".conf"))`,
app.py line 216), with the keyword rule taken before the extension rule. -/
def classify (file_name file_content : Str) : FileClass :=
  if is_dockerfile file_name file_content then .Dockerfile
  else if supportedExtensions.any (fun e => endsWithB e file_name) then .ConfigFile
  else .Unsupported

/-! ## DockerfileAnalysis data model (spec section 3; the dict produced by
`analyze_dockerfile`, app.py lines 144-173) -/

structure EnvVar where
  name : Str
  value : Str
deriving DecidableEq, Repr

/-- The `command` field of the analysis dict: Python distinguishes a plain
string from a list of strings (`isinstance(command, list)`, app.py line 65). -/
inductive PyCommand where
  | str (c : Str)
  | list (cs : List Str)
deriving DecidableEq, Repr

/-- The structured record extracted from the model response.  An absent
dictionary key is `none`; `\x7b\x7d` (the empty dict) is the record with every
field `none`. -/
structure DockerfileConfig where
  base_image : Option Str := none
  ports : Option (List Int) := none
  env_vars : Option (List EnvVar) := none
  volumes : Option (List Str) := none
  command : Option PyCommand := none
  resources : Option (List (Str × Str)) := none
deriving DecidableEq, Repr

/-- The empty analysis record (`return \x7b\x7d`, app.py line 173). -/
def emptyAnalysis : DockerfileConfig := {}

/-! ## Response Parser (`analyze_dockerfile`, app.py lines 158-173) -/

/-- Split `text` at the first occurrence of `pat`: returns the part before
the first occurrence and the part after it. -/
def splitFirst (pat : Str) : Str → Option (Str × Str)
  | [] => if pat.isEmpty then some ([], []) else none
  | c :: rest =>
    if startsWithB pat (c :: rest) then some ([], (c :: rest).drop pat.length)
    else
      match splitFirst pat rest with
      | some (pre, post) => some (c :: pre, post)
      | none => none

/-- Model of `re.search(r'```json\n(.*?)\n```', text, re.DOTALL)`
(app.py line 166): the leftmost occurrence of the opening fence, then the
lazily shortest body up to the next closing fence. -/
def extractFenced (text : Str) : Option Str :=
  match splitFirst (s "```json\n") text with
  | none => none
  | some (_, rest) =>
    match splitFirst (s "\n```") rest with
    | none => none
    | some (inner, _) => some inner

/-- The `try` body and `except` handler of `analyze_dockerfile`
(app.py lines 159-173), with `json.loads` modelled by the abstract decoder
`decode` (a decoder returning `none` models `json.loads` raising).  The
second component records whether the `except` branch ran, i.e. whether
`st.error("Failed to parse Dockerfile analysis: ...")` was shown; in that
case the function returns the empty record instead of raising. -/
def parse_structured (decode : Str → Option DockerfileConfig) (text : Str) :
    DockerfileConfig × Bool :=
  match extractFenced text with
  | some inner =>
    match decode inner with
    | some cfg => (cfg, false)
    | none => (emptyAnalysis, true)
  | none =>
    match decode text with
    | some cfg => (cfg, false)
    | none => (emptyAnalysis, true)

/-- `analyze_dockerfile` (app.py lines 144-173) as a function of the outcome
of the external call `model.generate_content(prompt)` (app.py line 158).
That call stands OUTSIDE the `try` block, so when it raises
(`Except.error`) the exception propagates to the caller; only a successful
response reaches the `try`-protected parsing above. -/
def analyze_dockerfile (decode : Str → Option DockerfileConfig)
    (call : Except Str Str) : Except Str (DockerfileConfig × Bool) :=
  match call with
  | .error e => .error e
  | .ok text => .ok (parse_structured decode text)

/-! ## Wizard state machine (app.py lines 230-353).
`k8s_step` 1 = Upload, 2 = Configure, 3 = Generate. -/

structure WizardSession where
  k8s_step : Nat := 1
  image_name : Option Str := none
  host_name : Option Str := none
  dockerfile_analysis : Option DockerfileConfig := none
deriving DecidableEq, Repr

/-- The "Start Over" button handler (app.py lines 347-349): it assigns
`st.session_state.k8s_step = 1` and nothing else. -/
def startOver (sess : WizardSession) : WizardSession :=
  { sess with k8s_step := 1 }

/-- The "Generate Kubernetes Files" button handler (app.py lines 291-298):
`if image_name and host_name:` store both fields and advance to step 3,
else `st.error("Please fill in all required fields.")` and leave the
session unchanged.  The second component records whether the validation
error was surfaced. -/
def generateFilesButton (sess : WizardSession) (image_name host_name : Str) :
    WizardSession × Bool :=
  if !image_name.isEmpty && !host_name.isEmpty then
    ({ sess with image_name := some image_name, host_name := some host_name,
                 k8s_step := 3 }, false)
  else
    (sess, true)

/-! ## Template Renderer: value formatting.
The f-string `f'        {k}: {v}\n'` (app.py line 68) renders a Python list
value with `str`, which formats the elements with `repr`.  `pyReprStr`
models CPython `repr` of an ASCII string: quote choice (single quotes,
double quotes when the text holds a single quote but no double quote) and
the standard escapes. -/

/-- Quote character CPython `repr` picks for string `x`. -/
def pyReprQuote (x : Str) : Char :=
  if x.contains '\x27' && !(x.contains '"') then '"' else '\x27'

/-- CPython `repr` escaping of one character under quote `q`. -/
def pyReprEscape (q c : Char) : Str :=
  if c = '\\' then ['\\', '\\']
  else if c = q then ['\\', q]
  else if c = '\n' then ['\\', 'n']
  else if c = '\r' then ['\\', 'r']
  else if c = '\t' then ['\\', 't']
  else [c]

/-- CPython `repr` of an ASCII string. -/
def pyReprStr (x : Str) : Str :=
  let q := pyReprQuote x
  q :: (x.flatMap (pyReprEscape q) ++ [q])

/-- Python `str` of an `int`. -/
def intStr (i : Int) : Str := (toString i).toList

/-- Python `str` of a list, given the already-rendered elements:
`[e1, e2, ...]`. -/
def pyStrList (elems : List Str) : Str :=
  s "[" ++ joinSep (s ", ") elems ++ s "]"

/-- Python `str` of the dict `\x7b'containerPort': p\x7d` (app.py line 56). -/
def portDictStr (p : Int) : Str :=
  s "\x7b\x27containerPort\x27: " ++ intStr p ++ s "\x7d"

/-- Python `str` of the dict `\x7b'name': ..., 'value': ...\x7d`
(app.py line 61). -/
def envDictStr (e : EnvVar) : Str :=
  s "\x7b\x27name\x27: " ++ pyReprStr e.name ++ s ", \x27value\x27: " ++
    pyReprStr e.value ++ s "\x7d"

/-! ## Template Renderer: `generate_deployment_yaml` (app.py lines 39-88) -/

/-- The `container_spec` dict after lines 53-65 of app.py: keys in insertion
order `name`, `image`, `ports`, then `env` when `env_vars` is truthy
(non-empty), then `command` when `command` is truthy (a non-empty string or
a non-empty list; a plain string is wrapped into a one-element list). -/
structure ContainerSpec where
  name : Str
  image : Str
  ports : List Int
  env : Option (List EnvVar)
  command : Option (List Str)
deriving DecidableEq, Repr

/-- Lines 43-65 of app.py: extract `ports` (default `[80]`), `env_vars`
(default `[]`), `command` (default `None`) from the analysis dict and build
`container_spec`. -/
def buildContainerSpec (image_name : Str) (cfg : DockerfileConfig) :
    ContainerSpec :=
  let ports := cfg.ports.getD [80]
  let env_vars := cfg.env_vars.getD []
  { name := image_name
    image := image_name
    ports := ports
    env := if env_vars.isEmpty then none
           else some (env_vars.map (fun e => { name := e.name, value := e.value }))
    command :=
      match cfg.command with
      | some (.str c) => if c.isEmpty then none else some [c]
      | some (.list cs) => if cs.isEmpty then none else some cs
      | none => none }

/-- The key/value pairs of `container_spec` with the values rendered the way
the f-string `f'        {k}: {v}\n'` renders them (`str` of each value). -/
def containerItems (cs : ContainerSpec) : List (Str × Str) :=
  [(s "name", cs.name), (s "image", cs.image),
   (s "ports", pyStrList (cs.ports.map portDictStr))]
  ++ (match cs.env with
      | none => []
      | some evs => [(s "env", pyStrList (evs.map envDictStr))])
  ++ (match cs.command with
      | none => []
      | some cmd => [(s "command", pyStrList (cmd.map pyReprStr))])

/-- `container_spec_str = ''.join(f'        {k}: {v}\n' for k, v in
container_spec.items())` (app.py line 68). -/
def containerSpecStr (cs : ContainerSpec) : Str :=
  ((containerItems cs).map
    (fun kv => s "        " ++ kv.1 ++ s ": " ++ kv.2 ++ s "\n")).flatten

/-- `generate_deployment_yaml` (app.py lines 39-88): the literal f-string
template with `container_spec_str` spliced after `      - `. -/
def generate_deployment_yaml (image_name : Str) (cfg : DockerfileConfig) :
    Str :=
  let container_spec_str := containerSpecStr (buildContainerSpec image_name cfg)
  s "\napiVersion: apps/v1\nkind: Deployment\nmetadata:\n  name: " ++
    image_name ++
    s "-deployment\nspec:\n  replicas: 1\n  selector:\n    matchLabels:\n      app: " ++
    image_name ++
    s "\n  template:\n    metadata:\n      labels:\n        app: " ++
    image_name ++
    s "\n    spec:\n      containers:\n      - " ++ container_spec_str

/-! ## Template Renderer: `generate_service_yaml` (app.py lines 92-115) -/

/-- One element of the generator expression building `ports_spec`
(app.py line 101). -/
def servicePortEntry (p : Int) : Str :=
  s "    - protocol: TCP\n      port: " ++ intStr p ++
    s "\n      targetPort: " ++ intStr p

/-- `generate_service_yaml` (app.py lines 92-115). -/
def generate_service_yaml (image_name : Str) (cfg : DockerfileConfig) : Str :=
  let ports := cfg.ports.getD [80]
  let ports_spec := joinNL (ports.map servicePortEntry)
  s "\napiVersion: v1\nkind: Service\nmetadata:\n  name: " ++ image_name ++
    s "-service\nspec:\n  selector:\n    app: " ++ image_name ++
    s "\n  ports:\n" ++ ports_spec ++ s "\n  type: ClusterIP"

/-! ## Template Renderer: `generate_ingress_yaml` (app.py lines 119-141) -/

/-- `generate_ingress_yaml` (app.py lines 119-141). -/
def generate_ingress_yaml (image_name host_name : Str) : Str :=
  s "\napiVersion: networking.k8s.io/v1\nkind: Ingress\nmetadata:\n  name: " ++
    image_name ++ s "-ingress\nspec:\n  rules:\n  - host: " ++ host_name ++
    s "\n    http:\n      paths:\n      - path: /\n        pathType: Prefix\n        backend:\n          service:\n            name: " ++
    image_name ++ s "-service\n            port:\n              number: 80\n    "

/-! ## Line decompositions of the three generated texts.
Each `*Lines` definition lists the lines of the corresponding template
between its newline characters; the `joinNL`-equality theorems below prove
the decompositions faithful to the generators. -/

/-- The three text lines one `ports_spec` element contributes. -/
def serviceEntryLines (p : Int) : List Str :=
  [s "    - protocol: TCP",
   s "      port: " ++ intStr p,
   s "      targetPort: " ++ intStr p]

/-- The lines the `\n{ports_spec}\n` region contributes: for an empty port
list the joined `ports_spec` is empty and the region is a single blank
line. -/
def serviceMidLines (ports : List Int) : List Str :=
  match ports with
  | [] => [[]]
  | _ => (ports.map serviceEntryLines).flatten

/-- The lines of `generate_service_yaml image_name cfg` where
`ports = cfg.ports.getD [80]`. -/
def serviceLines (image_name : Str) (ports : List Int) : List Str :=
  [[], s "apiVersion: v1", s "kind: Service", s "metadata:",
   s "  name: " ++ image_name ++ s "-service", s "spec:", s "  selector:",
   s "    app: " ++ image_name, s "  ports:"]
  ++ serviceMidLines ports
  ++ [s "  type: ClusterIP"]

/-- The lines of `generate_ingress_yaml image_name host_name`. -/
def ingressLines (image_name host_name : Str) : List Str :=
  [[], s "apiVersion: networking.k8s.io/v1", s "kind: Ingress", s "metadata:",
   s "  name: " ++ image_name ++ s "-ingress", s "spec:", s "  rules:",
   s "  - host: " ++ host_name, s "    http:", s "      paths:",
   s "      - path: /", s "        pathType: Prefix", s "        backend:",
   s "          service:",
   s "            name: " ++ image_name ++ s "-service",
   s "            port:", s "              number: 80", s "    "]

/-- One line per `container_spec` item, without the trailing newline. -/
def containerItemLines (cs : ContainerSpec) : List Str :=
  (containerItems cs).map (fun kv => s "        " ++ kv.1 ++ s ": " ++ kv.2)

/-- The container lines as they appear in the deployment text: the template
splices `container_spec_str` directly after `      - `, so the FIRST item
line is merged onto the `- ` line, keeping its own 8-space indent. -/
def mergedContainerLines : List Str → List Str
  | [] => []
  | x :: rest => (s "      - " ++ x) :: rest

/-- The lines of `generate_deployment_yaml image_name cfg`. -/
def deploymentLines (image_name : Str) (cfg : DockerfileConfig) : List Str :=
  [[], s "apiVersion: apps/v1", s "kind: Deployment", s "metadata:",
   s "  name: " ++ image_name ++ s "-deployment", s "spec:",
   s "  replicas: 1", s "  selector:", s "    matchLabels:",
   s "      app: " ++ image_name, s "  template:", s "    metadata:",
   s "      labels:", s "        app: " ++ image_name, s "    spec:",
   s "      containers:"]
  ++ mergedContainerLines (containerItemLines (buildContainerSpec image_name cfg))
  ++ [[]]

/-! ## A necessary condition of YAML block syntax (for claim C3) -/

/-- Number of leading space characters of a line. -/
def leadSpaces (l : Str) : Nat := (l.takeWhile (fun c => c == ' ')).length

/-- Modelled from the spec: section 4.4 requires the rendered manifests to be
syntactically valid structured-markup (YAML) text; the YAML block grammar is
not part of the repository, so this captures one NECESSARY condition of it:
inside a block-sequence item that carries a block mapping, every key of the
mapping must start at the same column.  For the generated container block the
first key's column is fixed on the `      - ` line (column 8 plus whatever
indentation follows the dash) and each following 8-space-indented item line
must be indented to that same column. -/
def containerKeysAligned (lines : List Str) : Bool :=
  match lines.dropWhile (fun l => !(startsWithB (s "      - ") l)) with
  | [] => true
  | first :: rest =>
    let keyCol := 8 + leadSpaces (first.drop 8)
    (rest.takeWhile (fun l => startsWithB (s "        ") l)).all
      (fun l => leadSpaces l == keyCol)

/-! ## Generic list and string lemmas -/

theorem startsWithB_append_self (a b : Str) : startsWithB a (a ++ b) = true := by
  induction a with
  | nil => rfl
  | cons c cs ih => simp [startsWithB, ih]

theorem startsWithB_exists {a m : Str} (h : startsWithB a m = true) :
    ∃ t, m = a ++ t := by
  induction a generalizing m with
  | nil => exact ⟨m, rfl⟩
  | cons c cs ih =>
    cases m with
    | nil => simp [startsWithB] at h
    | cons d ds =>
      simp only [startsWithB, Bool.and_eq_true, beq_iff_eq] at h
      obtain ⟨rfl, h2⟩ := h
      obtain ⟨t, rfl⟩ := ih h2
      exact ⟨t, rfl⟩

theorem endsWithB_append_self (a b : Str) : endsWithB b (a ++ b) = true := by
  simpa [endsWithB, List.reverse_append] using
    startsWithB_append_self b.reverse a.reverse

theorem endsWithB_exists {a m : Str} (h : endsWithB a m = true) :
    ∃ t, m = t ++ a := by
  simp only [endsWithB] at h
  obtain ⟨t, ht⟩ := startsWithB_exists h
  refine ⟨t.reverse, ?_⟩
  have := congrArg List.reverse ht
  simpa [List.reverse_append] using this

theorem stripRight_append (x y : Str) :
    stripRight (x ++ y) =
      match stripRight y with
      | [] => stripRight x
      | d :: ds => x ++ d :: ds := by
  cases h : stripRight y with
  | nil =>
    induction x with
    | nil => simpa [stripRight] using h
    | cons c cs ih =>
      rw [List.cons_append]
      have step : stripRight (c :: (cs ++ y)) =
          match stripRight (cs ++ y) with
          | [] => if pySpace c then [] else [c]
          | d :: ds => c :: d :: ds := rfl
      rw [step, ih]
      rfl
  | cons d ds =>
    induction x with
    | nil => simpa [stripRight] using h
    | cons c cs ih =>
      rw [List.cons_append]
      have step : stripRight (c :: (cs ++ y)) =
          match stripRight (cs ++ y) with
          | [] => if pySpace c then [] else [c]
          | e :: es => c :: e :: es := rfl
      rw [step, ih]
      cases cs <;> simp

theorem stripRight_no_space {k : Str} (h : ∀ c ∈ k, pySpace c = false) :
    stripRight k = k := by
  induction k with
  | nil => rfl
  | cons c cs ih =>
    have hc : pySpace c = false := h c (by simp)
    have ihs : stripRight cs = cs := ih (fun d hd => h d (by simp [hd]))
    have step : stripRight (c :: cs) =
        match stripRight cs with
        | [] => if pySpace c then [] else [c]
        | e :: es => c :: e :: es := rfl
    rw [step, ihs]
    cases cs with
    | nil => simp [hc]
    | cons d ds => rfl

theorem startsWithB_stripRight {k m : Str} (hns : ∀ c ∈ k, pySpace c = false)
    (h : startsWithB k m = true) : startsWithB k (stripRight m) = true := by
  obtain ⟨t, rfl⟩ := startsWithB_exists h
  rw [stripRight_append]
  cases ht : stripRight t with
  | nil => rw [stripRight_no_space hns]; simpa using startsWithB_append_self k []
  | cons d ds => exact startsWithB_append_self k (d :: ds)

theorem startsWithB_pyStrip {k l : Str} (hns : ∀ c ∈ k, pySpace c = false)
    (h : startsWithB k (stripLeft l) = true) :
    startsWithB k (pyStrip l) = true :=
  startsWithB_stripRight hns h

theorem joinNL_append {xs ys : List Str} (hx : xs ≠ []) (hy : ys ≠ []) :
    joinNL (xs ++ ys) = joinNL xs ++ '\n' :: joinNL ys := by
  induction xs with
  | nil => exact absurd rfl hx
  | cons a as ih =>
    cases as with
    | nil =>
      cases ys with
      | nil => exact absurd rfl hy
      | cons b bs => simp [joinNL, joinSep]
    | cons a' as' =>
      have h2 := ih (by simp)
      have e1 : joinNL ((a :: a' :: as') ++ ys) =
          a ++ ['\n'] ++ joinNL ((a' :: as') ++ ys) := by
        simp only [List.cons_append]
        rfl
      have e2 : joinNL (a :: a' :: as') = a ++ ['\n'] ++ joinNL (a' :: as') := rfl
      rw [e1, e2, h2]
      simp [List.append_assoc]

theorem joinNL_cons_append (a x : Str) (r : List Str) :
    joinNL ((a ++ x) :: r) = a ++ joinNL (x :: r) := by
  cases r with
  | nil => rfl
  | cons b bs => simp [joinNL, joinSep, List.append_assoc]

/-! ## The generated texts equal the newline-joins of their line lists -/

theorem ingress_text_eq (i h : Str) :
    generate_ingress_yaml i h = joinNL (ingressLines i h) := by
  have d1 : s "\napiVersion: networking.k8s.io/v1\nkind: Ingress\nmetadata:\n  name: " =
      ([] : Str) ++ ['\n'] ++ s "apiVersion: networking.k8s.io/v1" ++ ['\n'] ++
      s "kind: Ingress" ++ ['\n'] ++ s "metadata:" ++ ['\n'] ++ s "  name: " := rfl
  have d2 : s "-ingress\nspec:\n  rules:\n  - host: " =
      s "-ingress" ++ ['\n'] ++ s "spec:" ++ ['\n'] ++ s "  rules:" ++ ['\n'] ++
      s "  - host: " := rfl
  have d3 : s "\n    http:\n      paths:\n      - path: /\n        pathType: Prefix\n        backend:\n          service:\n            name: " =
      ['\n'] ++ s "    http:" ++ ['\n'] ++ s "      paths:" ++ ['\n'] ++
      s "      - path: /" ++ ['\n'] ++ s "        pathType: Prefix" ++ ['\n'] ++
      s "        backend:" ++ ['\n'] ++ s "          service:" ++ ['\n'] ++
      s "            name: " := rfl
  have d4 : s "-service\n            port:\n              number: 80\n    " =
      s "-service" ++ ['\n'] ++ s "            port:" ++ ['\n'] ++
      s "              number: 80" ++ ['\n'] ++ s "    " := rfl
  rw [generate_ingress_yaml, d1, d2, d3, d4]
  simp only [ingressLines, joinNL, joinSep]
  simp [List.append_assoc]

theorem servicePortEntry_lines (p : Int) :
    servicePortEntry p = joinNL (serviceEntryLines p) := by
  have d1 : s "    - protocol: TCP\n      port: " =
      s "    - protocol: TCP" ++ ['\n'] ++ s "      port: " := rfl
  have d2 : s "\n      targetPort: " = ['\n'] ++ s "      targetPort: " := rfl
  rw [servicePortEntry, d1, d2]
  simp [serviceEntryLines, joinNL, joinSep, List.append_assoc]

theorem serviceMid_join (ports : List Int) :
    joinNL (ports.map servicePortEntry) = joinNL (serviceMidLines ports) := by
  cases ports with
  | nil => rfl
  | cons p ps =>
    simp only [serviceMidLines]
    induction ps generalizing p with
    | nil => simp [servicePortEntry_lines, joinNL, joinSep]
    | cons q qs ih =>
      have e1 : joinNL (servicePortEntry p :: servicePortEntry q ::
          List.map servicePortEntry qs) =
          servicePortEntry p ++ ['\n'] ++
            joinNL (servicePortEntry q :: List.map servicePortEntry qs) := rfl
      have hflat : ((q :: qs).map serviceEntryLines).flatten ≠ [] := by
        simp [serviceEntryLines]
      have e2 : (((p :: q :: qs).map serviceEntryLines).flatten : List Str) =
          serviceEntryLines p ++ ((q :: qs).map serviceEntryLines).flatten := by
        simp
      simp only [List.map_cons] at *
      rw [e1, e2, joinNL_append (by simp [serviceEntryLines]) hflat, ih,
        servicePortEntry_lines]
      simp [List.append_assoc]

theorem serviceMidLines_ne_nil (ports : List Int) : serviceMidLines ports ≠ [] := by
  cases ports with
  | nil => simp [serviceMidLines]
  | cons p ps => simp [serviceMidLines, serviceEntryLines]

theorem service_text_eq (i : Str) (cfg : DockerfileConfig) :
    generate_service_yaml i cfg = joinNL (serviceLines i (cfg.ports.getD [80])) := by
  have d1 : s "\napiVersion: v1\nkind: Service\nmetadata:\n  name: " =
      ([] : Str) ++ ['\n'] ++ s "apiVersion: v1" ++ ['\n'] ++ s "kind: Service" ++
      ['\n'] ++ s "metadata:" ++ ['\n'] ++ s "  name: " := rfl
  have d2 : s "-service\nspec:\n  selector:\n    app: " =
      s "-service" ++ ['\n'] ++ s "spec:" ++ ['\n'] ++ s "  selector:" ++ ['\n'] ++
      s "    app: " := rfl
  have d3 : s "\n  ports:\n" = ['\n'] ++ s "  ports:" ++ ['\n'] := rfl
  have d4 : s "\n  type: ClusterIP" = ['\n'] ++ s "  type: ClusterIP" := rfl
  rw [generate_service_yaml, d1, d2, d3, d4]
  rw [serviceLines,
    @joinNL_append ([[], s "apiVersion: v1", s "kind: Service", s "metadata:",
      s "  name: " ++ i ++ s "-service", s "spec:", s "  selector:",
      s "    app: " ++ i, s "  ports:"] ++ serviceMidLines (cfg.ports.getD [80]))
      _ (by simp) (by simp),
    @joinNL_append [[], s "apiVersion: v1", s "kind: Service", s "metadata:",
      s "  name: " ++ i ++ s "-service", s "spec:", s "  selector:",
      s "    app: " ++ i, s "  ports:"] _ (by simp)
      (serviceMidLines_ne_nil _)]
  rw [serviceMid_join]
  simp only [joinNL, joinSep]
  simp [List.append_assoc]

theorem flatten_map_newline (ls : List Str) (h : ls ≠ []) :
    (ls.map (fun l => l ++ ['\n'])).flatten = joinNL ls ++ ['\n'] := by
  induction ls with
  | nil => exact absurd rfl h
  | cons x xs ih =>
    cases xs with
    | nil => simp [joinNL, joinSep]
    | cons y ys =>
      have e : joinNL (x :: y :: ys) = x ++ ['\n'] ++ joinNL (y :: ys) := rfl
      simp only [List.map_cons, List.flatten_cons] at *
      rw [ih (by simp), e]
      simp [List.append_assoc]

theorem containerItemLines_ne_nil (cs : ContainerSpec) :
    containerItemLines cs ≠ [] := by
  simp [containerItemLines, containerItems]

theorem containerSpecStr_join (cs : ContainerSpec) :
    containerSpecStr cs = joinNL (containerItemLines cs) ++ ['\n'] := by
  have e : (containerItems cs).map
      (fun kv => s "        " ++ kv.1 ++ s ": " ++ kv.2 ++ s "\n") =
      (containerItemLines cs).map (fun l => l ++ ['\n']) := by
    simp only [containerItemLines, List.map_map]
    rfl
  rw [containerSpecStr, e, flatten_map_newline _ (containerItemLines_ne_nil cs)]

theorem deployment_text_eq (i : Str) (cfg : DockerfileConfig) :
    generate_deployment_yaml i cfg = joinNL (deploymentLines i cfg) := by
  have d1 : s "\napiVersion: apps/v1\nkind: Deployment\nmetadata:\n  name: " =
      ([] : Str) ++ ['\n'] ++ s "apiVersion: apps/v1" ++ ['\n'] ++
      s "kind: Deployment" ++ ['\n'] ++ s "metadata:" ++ ['\n'] ++ s "  name: " := rfl
  have d2 : s "-deployment\nspec:\n  replicas: 1\n  selector:\n    matchLabels:\n      app: " =
      s "-deployment" ++ ['\n'] ++ s "spec:" ++ ['\n'] ++ s "  replicas: 1" ++
      ['\n'] ++ s "  selector:" ++ ['\n'] ++ s "    matchLabels:" ++ ['\n'] ++
      s "      app: " := rfl
  have d3 : s "\n  template:\n    metadata:\n      labels:\n        app: " =
      ['\n'] ++ s "  template:" ++ ['\n'] ++ s "    metadata:" ++ ['\n'] ++
      s "      labels:" ++ ['\n'] ++ s "        app: " := rfl
  have d4 : s "\n    spec:\n      containers:\n      - " =
      ['\n'] ++ s "    spec:" ++ ['\n'] ++ s "      containers:" ++ ['\n'] ++
      s "      - " := rfl
  cases hI : containerItemLines (buildContainerSpec i cfg) with
  | nil => exact absurd hI (containerItemLines_ne_nil _)
  | cons x0 rest =>
    rw [generate_deployment_yaml, containerSpecStr_join, hI, d1, d2, d3, d4]
    rw [deploymentLines, hI]
    rw [@joinNL_append
      ([[], s "apiVersion: apps/v1", s "kind: Deployment", s "metadata:",
        s "  name: " ++ i ++ s "-deployment", s "spec:", s "  replicas: 1",
        s "  selector:", s "    matchLabels:", s "      app: " ++ i,
        s "  template:", s "    metadata:", s "      labels:",
        s "        app: " ++ i, s "    spec:", s "      containers:"] ++
        mergedContainerLines (x0 :: rest))
      _ (by simp [mergedContainerLines]) (by simp)]
    rw [@joinNL_append
      [[], s "apiVersion: apps/v1", s "kind: Deployment", s "metadata:",
        s "  name: " ++ i ++ s "-deployment", s "spec:", s "  replicas: 1",
        s "  selector:", s "    matchLabels:", s "      app: " ++ i,
        s "  template:", s "    metadata:", s "      labels:",
        s "        app: " ++ i, s "    spec:", s "      containers:"]
      _ (by simp) (by simp [mergedContainerLines])]
    rw [show mergedContainerLines (x0 :: rest) = (s "      - " ++ x0) :: rest from rfl,
      joinNL_cons_append]
    simp only [joinNL, joinSep]
    simp [List.append_assoc]

/-! ## Extraction of values from generated lines -/

/-- The values of the lines starting with `pre`: for every line of `lines`
that starts with `pre`, the rest of that line, in order. -/
def linesValues (pre : Str) (lines : List Str) : List Str :=
  lines.filterMap (fun l => if startsWithB pre l then some (l.drop pre.length) else none)

theorem linesValues_append (pre : Str) (xs ys : List Str) :
    linesValues pre (xs ++ ys) = linesValues pre xs ++ linesValues pre ys := by
  simp [linesValues, List.filterMap_append]

theorem linesValues_service_port (i : Str) (ps : List Int) :
    linesValues (s "      port: ") (serviceLines i ps) = ps.map intStr := by
  have hdr : linesValues (s "      port: ")
      [[], s "apiVersion: v1", s "kind: Service", s "metadata:",
       s "  name: " ++ i ++ s "-service", s "spec:", s "  selector:",
       s "    app: " ++ i, s "  ports:"] = [] := rfl
  have tl : linesValues (s "      port: ") [s "  type: ClusterIP"] = [] := rfl
  have aux : ∀ qs : List Int,
      linesValues (s "      port: ") ((qs.map serviceEntryLines).flatten) =
        qs.map intStr := by
    intro qs
    induction qs with
    | nil => rfl
    | cons q qs ih =>
      have entry : linesValues (s "      port: ") (serviceEntryLines q) =
          [intStr q] := rfl
      simp only [List.map_cons, List.flatten_cons, linesValues_append, entry, ih]
      rfl
  rw [serviceLines, linesValues_append, linesValues_append, hdr, tl]
  simp only [List.nil_append, List.append_nil]
  cases ps with
  | nil => rfl
  | cons p qs => exact aux (p :: qs)

theorem linesValues_service_targetPort (i : Str) (ps : List Int) :
    linesValues (s "      targetPort: ") (serviceLines i ps) = ps.map intStr := by
  have hdr : linesValues (s "      targetPort: ")
      [[], s "apiVersion: v1", s "kind: Service", s "metadata:",
       s "  name: " ++ i ++ s "-service", s "spec:", s "  selector:",
       s "    app: " ++ i, s "  ports:"] = [] := rfl
  have tl : linesValues (s "      targetPort: ") [s "  type: ClusterIP"] = [] := rfl
  have aux : ∀ qs : List Int,
      linesValues (s "      targetPort: ") ((qs.map serviceEntryLines).flatten) =
        qs.map intStr := by
    intro qs
    induction qs with
    | nil => rfl
    | cons q qs ih =>
      have entry : linesValues (s "      targetPort: ") (serviceEntryLines q) =
          [intStr q] := rfl
      simp only [List.map_cons, List.flatten_cons, linesValues_append, entry, ih]
      rfl
  rw [serviceLines, linesValues_append, linesValues_append, hdr, tl]
  simp only [List.nil_append, List.append_nil]
  cases ps with
  | nil => rfl
  | cons p qs => exact aux (p :: qs)

theorem service_entry_count (i : Str) (ps : List Int) :
    ((serviceLines i ps).filter (fun l => l == s "    - protocol: TCP")).length =
      ps.length := by
  have hdr : ([[], s "apiVersion: v1", s "kind: Service", s "metadata:",
       s "  name: " ++ i ++ s "-service", s "spec:", s "  selector:",
       s "    app: " ++ i, s "  ports:"].filter
        (fun l => l == s "    - protocol: TCP")) = [] := rfl
  have aux : ∀ qs : List Int,
      (((qs.map serviceEntryLines).flatten).filter
        (fun l => l == s "    - protocol: TCP")).length = qs.length := by
    intro qs
    induction qs with
    | nil => rfl
    | cons q qs ih =>
      have entry : (serviceEntryLines q).filter
          (fun l => l == s "    - protocol: TCP") = [s "    - protocol: TCP"] := rfl
      simp only [List.map_cons, List.flatten_cons, List.filter_append, entry, ih,
        List.length_append, List.length_cons, List.length_nil]
      omega
  rw [serviceLines, List.filter_append, List.filter_append, hdr]
  simp only [List.nil_append, List.length_append]
  have tl : ([s "  type: ClusterIP"].filter
      (fun l => l == s "    - protocol: TCP")).length = 0 := rfl
  rw [tl]
  cases ps with
  | nil => rfl
  | cons p qs =>
    have := aux (p :: qs)
    simp only [serviceMidLines, this]
    omega

/-! ## Extraction lemmas for the deployment container block -/

theorem merged_values_ports (cs : ContainerSpec) :
    linesValues (s "        ports: ") (mergedContainerLines (containerItemLines cs)) =
      [pyStrList (cs.ports.map portDictStr)] := by
  have c1 : ∀ v : Str, startsWithB (s "        ports: ")
      (s "      - " ++ (s "        " ++ (s "name" ++ (s ": " ++ v)))) = false := fun _ => rfl
  have c2 : ∀ v : Str, startsWithB (s "        ports: ")
      (s "        " ++ (s "image" ++ (s ": " ++ v))) = false := fun _ => rfl
  have c3 : ∀ v : Str, startsWithB (s "        ports: ")
      (s "        " ++ (s "ports" ++ (s ": " ++ v))) = true := fun _ => rfl
  have c4 : ∀ v : Str, startsWithB (s "        ports: ")
      (s "        " ++ (s "env" ++ (s ": " ++ v))) = false := fun _ => rfl
  have c5 : ∀ v : Str, startsWithB (s "        ports: ")
      (s "        " ++ (s "command" ++ (s ": " ++ v))) = false := fun _ => rfl
  have d3 : ∀ v : Str, (s "        " ++ (s "ports" ++ (s ": " ++ v))).drop
      (s "        ports: ").length = v := fun _ => rfl
  cases henv : cs.env <;> cases hcmd : cs.command <;>
    simp [containerItemLines, containerItems, henv, hcmd, mergedContainerLines,
      linesValues, List.filterMap_cons, c1, c2, c3, c4, c5, d3]

theorem merged_values_env (cs : ContainerSpec) :
    linesValues (s "        env: ") (mergedContainerLines (containerItemLines cs)) =
      (match cs.env with
       | none => []
       | some evs => [pyStrList (evs.map envDictStr)]) := by
  have c1 : ∀ v : Str, startsWithB (s "        env: ")
      (s "      - " ++ (s "        " ++ (s "name" ++ (s ": " ++ v)))) = false := fun _ => rfl
  have c2 : ∀ v : Str, startsWithB (s "        env: ")
      (s "        " ++ (s "image" ++ (s ": " ++ v))) = false := fun _ => rfl
  have c3 : ∀ v : Str, startsWithB (s "        env: ")
      (s "        " ++ (s "ports" ++ (s ": " ++ v))) = false := fun _ => rfl
  have c4 : ∀ v : Str, startsWithB (s "        env: ")
      (s "        " ++ (s "env" ++ (s ": " ++ v))) = true := fun _ => rfl
  have c5 : ∀ v : Str, startsWithB (s "        env: ")
      (s "        " ++ (s "command" ++ (s ": " ++ v))) = false := fun _ => rfl
  have d4 : ∀ v : Str, (s "        " ++ (s "env" ++ (s ": " ++ v))).drop
      (s "        env: ").length = v := fun _ => rfl
  cases henv : cs.env <;> cases hcmd : cs.command <;>
    simp [containerItemLines, containerItems, henv, hcmd, mergedContainerLines,
      linesValues, List.filterMap_cons, c1, c2, c3, c4, c5, d4]

theorem merged_values_command (cs : ContainerSpec) :
    linesValues (s "        command: ") (mergedContainerLines (containerItemLines cs)) =
      (match cs.command with
       | none => []
       | some cmd => [pyStrList (cmd.map pyReprStr)]) := by
  have c1 : ∀ v : Str, startsWithB (s "        command: ")
      (s "      - " ++ (s "        " ++ (s "name" ++ (s ": " ++ v)))) = false := fun _ => rfl
  have c2 : ∀ v : Str, startsWithB (s "        command: ")
      (s "        " ++ (s "image" ++ (s ": " ++ v))) = false := fun _ => rfl
  have c3 : ∀ v : Str, startsWithB (s "        command: ")
      (s "        " ++ (s "ports" ++ (s ": " ++ v))) = false := fun _ => rfl
  have c4 : ∀ v : Str, startsWithB (s "        command: ")
      (s "        " ++ (s "env" ++ (s ": " ++ v))) = false := fun _ => rfl
  have c5 : ∀ v : Str, startsWithB (s "        command: ")
      (s "        " ++ (s "command" ++ (s ": " ++ v))) = true := fun _ => rfl
  have d5 : ∀ v : Str, (s "        " ++ (s "command" ++ (s ": " ++ v))).drop
      (s "        command: ").length = v := fun _ => rfl
  cases henv : cs.env <;> cases hcmd : cs.command <;>
    simp [containerItemLines, containerItems, henv, hcmd, mergedContainerLines,
      linesValues, List.filterMap_cons, c1, c2, c3, c4, c5, d5]

theorem merged_values_app8 (cs : ContainerSpec) :
    linesValues (s "        app: ") (mergedContainerLines (containerItemLines cs)) = [] := by
  have c1 : ∀ v : Str, startsWithB (s "        app: ")
      (s "      - " ++ (s "        " ++ (s "name" ++ (s ": " ++ v)))) = false := fun _ => rfl
  have c2 : ∀ v : Str, startsWithB (s "        app: ")
      (s "        " ++ (s "image" ++ (s ": " ++ v))) = false := fun _ => rfl
  have c3 : ∀ v : Str, startsWithB (s "        app: ")
      (s "        " ++ (s "ports" ++ (s ": " ++ v))) = false := fun _ => rfl
  have c4 : ∀ v : Str, startsWithB (s "        app: ")
      (s "        " ++ (s "env" ++ (s ": " ++ v))) = false := fun _ => rfl
  have c5 : ∀ v : Str, startsWithB (s "        app: ")
      (s "        " ++ (s "command" ++ (s ": " ++ v))) = false := fun _ => rfl
  cases henv : cs.env <;> cases hcmd : cs.command <;>
    simp [containerItemLines, containerItems, henv, hcmd, mergedContainerLines,
      linesValues, List.filterMap_cons, c1, c2, c3, c4, c5]

theorem merged_values_app6 (cs : ContainerSpec) :
    linesValues (s "      app: ") (mergedContainerLines (containerItemLines cs)) = [] := by
  have c1 : ∀ v : Str, startsWithB (s "      app: ")
      (s "      - " ++ (s "        " ++ (s "name" ++ (s ": " ++ v)))) = false := fun _ => rfl
  have c2 : ∀ v : Str, startsWithB (s "      app: ")
      (s "        " ++ (s "image" ++ (s ": " ++ v))) = false := fun _ => rfl
  have c3 : ∀ v : Str, startsWithB (s "      app: ")
      (s "        " ++ (s "ports" ++ (s ": " ++ v))) = false := fun _ => rfl
  have c4 : ∀ v : Str, startsWithB (s "      app: ")
      (s "        " ++ (s "env" ++ (s ": " ++ v))) = false := fun _ => rfl
  have c5 : ∀ v : Str, startsWithB (s "      app: ")
      (s "        " ++ (s "command" ++ (s ": " ++ v))) = false := fun _ => rfl
  cases henv : cs.env <;> cases hcmd : cs.command <;>
    simp [containerItemLines, containerItems, henv, hcmd, mergedContainerLines,
      linesValues, List.filterMap_cons, c1, c2, c3, c4, c5]

theorem dep_values_ports (i : Str) (cfg : DockerfileConfig) :
    linesValues (s "        ports: ") (deploymentLines i cfg) =
      [pyStrList ((cfg.ports.getD [80]).map portDictStr)] := by
  rw [deploymentLines, linesValues_append, linesValues_append]
  have hfront : linesValues (s "        ports: ")
      [[], s "apiVersion: apps/v1", s "kind: Deployment", s "metadata:",
       s "  name: " ++ i ++ s "-deployment", s "spec:", s "  replicas: 1",
       s "  selector:", s "    matchLabels:", s "      app: " ++ i,
       s "  template:", s "    metadata:", s "      labels:",
       s "        app: " ++ i, s "    spec:", s "      containers:"] = [] := rfl
  have hlast : linesValues (s "        ports: ") [([] : Str)] = [] := rfl
  rw [hfront, hlast, merged_values_ports]
  simp only [List.nil_append, List.append_nil]
  rfl

theorem dep_values_env (i : Str) (cfg : DockerfileConfig) :
    linesValues (s "        env: ") (deploymentLines i cfg) =
      (match (buildContainerSpec i cfg).env with
       | none => []
       | some evs => [pyStrList (evs.map envDictStr)]) := by
  rw [deploymentLines, linesValues_append, linesValues_append]
  have hfront : linesValues (s "        env: ")
      [[], s "apiVersion: apps/v1", s "kind: Deployment", s "metadata:",
       s "  name: " ++ i ++ s "-deployment", s "spec:", s "  replicas: 1",
       s "  selector:", s "    matchLabels:", s "      app: " ++ i,
       s "  template:", s "    metadata:", s "      labels:",
       s "        app: " ++ i, s "    spec:", s "      containers:"] = [] := rfl
  have hlast : linesValues (s "        env: ") [([] : Str)] = [] := rfl
  rw [hfront, hlast, merged_values_env]
  cases (buildContainerSpec i cfg).env <;> simp

theorem dep_values_command (i : Str) (cfg : DockerfileConfig) :
    linesValues (s "        command: ") (deploymentLines i cfg) =
      (match (buildContainerSpec i cfg).command with
       | none => []
       | some cmd => [pyStrList (cmd.map pyReprStr)]) := by
  rw [deploymentLines, linesValues_append, linesValues_append]
  have hfront : linesValues (s "        command: ")
      [[], s "apiVersion: apps/v1", s "kind: Deployment", s "metadata:",
       s "  name: " ++ i ++ s "-deployment", s "spec:", s "  replicas: 1",
       s "  selector:", s "    matchLabels:", s "      app: " ++ i,
       s "  template:", s "    metadata:", s "      labels:",
       s "        app: " ++ i, s "    spec:", s "      containers:"] = [] := rfl
  have hlast : linesValues (s "        command: ") [([] : Str)] = [] := rfl
  rw [hfront, hlast, merged_values_command]
  cases (buildContainerSpec i cfg).command <;> simp

theorem dep_values_app6 (i : Str) (cfg : DockerfileConfig) :
    linesValues (s "      app: ") (deploymentLines i cfg) = [i] := by
  rw [deploymentLines, linesValues_append, linesValues_append]
  have hfront : linesValues (s "      app: ")
      [[], s "apiVersion: apps/v1", s "kind: Deployment", s "metadata:",
       s "  name: " ++ i ++ s "-deployment", s "spec:", s "  replicas: 1",
       s "  selector:", s "    matchLabels:", s "      app: " ++ i,
       s "  template:", s "    metadata:", s "      labels:",
       s "        app: " ++ i, s "    spec:", s "      containers:"] = [i] := rfl
  have hlast : linesValues (s "      app: ") [([] : Str)] = [] := rfl
  rw [hfront, hlast, merged_values_app6]
  simp only [List.nil_append, List.append_nil]

theorem dep_values_app8 (i : Str) (cfg : DockerfileConfig) :
    linesValues (s "        app: ") (deploymentLines i cfg) = [i] := by
  rw [deploymentLines, linesValues_append, linesValues_append]
  have hfront : linesValues (s "        app: ")
      [[], s "apiVersion: apps/v1", s "kind: Deployment", s "metadata:",
       s "  name: " ++ i ++ s "-deployment", s "spec:", s "  replicas: 1",
       s "  selector:", s "    matchLabels:", s "      app: " ++ i,
       s "  template:", s "    metadata:", s "      labels:",
       s "        app: " ++ i, s "    spec:", s "      containers:"] = [i] := rfl
  have hlast : linesValues (s "        app: ") [([] : Str)] = [] := rfl
  rw [hfront, hlast, merged_values_app8]
  simp only [List.nil_append, List.append_nil]

/-! ## Extraction lemmas for the service and ingress texts -/

theorem linesValues_serviceMid_nil {pre : Str}
    (hentry : ∀ q : Int, linesValues pre (serviceEntryLines q) = [])
    (hblank : linesValues pre [([] : Str)] = []) :
    ∀ ps : List Int, linesValues pre (serviceMidLines ps) = [] := by
  have aux : ∀ qs : List Int,
      linesValues pre ((qs.map serviceEntryLines).flatten) = [] := by
    intro qs
    induction qs with
    | nil => rfl
    | cons q qs ih =>
      simp only [List.map_cons, List.flatten_cons, linesValues_append, hentry q, ih]
      rfl
  intro ps
  cases ps with
  | nil => exact hblank
  | cons p qs => exact aux (p :: qs)

theorem service_meta_name_value (i : Str) (ps : List Int) :
    linesValues (s "  name: ") (serviceLines i ps) = [i ++ s "-service"] := by
  rw [serviceLines, linesValues_append, linesValues_append]
  have hdr : linesValues (s "  name: ")
      [[], s "apiVersion: v1", s "kind: Service", s "metadata:",
       s "  name: " ++ i ++ s "-service", s "spec:", s "  selector:",
       s "    app: " ++ i, s "  ports:"] = [i ++ s "-service"] := rfl
  have tl : linesValues (s "  name: ") [s "  type: ClusterIP"] = [] := rfl
  rw [hdr, tl, @linesValues_serviceMid_nil (s "  name: ") (fun _ => rfl) rfl]
  simp

theorem service_selector_value (i : Str) (ps : List Int) :
    linesValues (s "    app: ") (serviceLines i ps) = [i] := by
  rw [serviceLines, linesValues_append, linesValues_append]
  have hdr : linesValues (s "    app: ")
      [[], s "apiVersion: v1", s "kind: Service", s "metadata:",
       s "  name: " ++ i ++ s "-service", s "spec:", s "  selector:",
       s "    app: " ++ i, s "  ports:"] = [i] := rfl
  have tl : linesValues (s "    app: ") [s "  type: ClusterIP"] = [] := rfl
  rw [hdr, tl, @linesValues_serviceMid_nil (s "    app: ") (fun _ => rfl) rfl]
  simp

theorem ingress_backend_value (i h : Str) :
    linesValues (s "            name: ") (ingressLines i h) = [i ++ s "-service"] := rfl

/-! ## Classifier lemmas -/

theorem keyword_no_space {k : Str} (hk : k ∈ dockerfile_keywords) :
    ∀ c ∈ k, pySpace c = false := by
  simp only [dockerfile_keywords, List.mem_cons, List.not_mem_nil, or_false] at hk
  rcases hk with rfl | rfl | rfl | rfl | rfl | rfl | rfl | rfl | rfl <;> decide

theorem ext_not_dockerfile_name {name : Str}
    (h : supportedExtensions.any (fun e => endsWithB e name) = true) :
    (pyLower name == s "dockerfile") = false := by
  rw [List.any_eq_true] at h
  obtain ⟨e, hmem, hsuf⟩ := h
  simp only [supportedExtensions, List.mem_cons, List.not_mem_nil, or_false] at hmem
  cases hbeq : (pyLower name == s "dockerfile") with
  | false => rfl
  | true =>
    exfalso
    have heq : pyLower name = s "dockerfile" := eq_of_beq hbeq
    obtain ⟨t, rfl⟩ := endsWithB_exists hsuf
    rw [pyLower, List.map_append] at heq
    have hend : endsWithB (List.map lowChar e) (s "dockerfile") = true := by
      rw [← heq]
      exact endsWithB_append_self _ _
    rcases hmem with rfl | rfl | rfl | rfl | rfl | rfl <;>
      exact absurd hend (by decide)

theorem hasDockerKeywordLine_of_stripLeft {file_content : Str}
    (h : (splitLines (pyUpper file_content)).any
      (fun line => dockerfile_keywords.any
        (fun k => startsWithB k (stripLeft line))) = true) :
    hasDockerKeywordLine file_content = true := by
  rw [hasDockerKeywordLine, List.any_eq_true]
  rw [List.any_eq_true] at h
  obtain ⟨line, hline, hk⟩ := h
  refine ⟨line, hline, ?_⟩
  rw [List.any_eq_true] at hk ⊢
  obtain ⟨k, hkmem, hpref⟩ := hk
  exact ⟨k, hkmem, startsWithB_pyStrip (keyword_no_space hkmem) hpref⟩

/-! ## Parser lemmas -/

theorem splitFirst_sound {pat : Str} :
    ∀ {text pre post : Str}, splitFirst pat text = some (pre, post) →
      text = pre ++ pat ++ post := by
  intro text
  induction text with
  | nil =>
    intro pre post h
    cases pat with
    | nil =>
      simp only [splitFirst, List.isEmpty_nil, if_true] at h
      obtain ⟨rfl, rfl⟩ := Prod.mk.injEq .. ▸ Option.some.injEq .. ▸ h
      rfl
    | cons pc pcs => simp [splitFirst] at h
  | cons ch rest ih =>
    intro pre post h
    rw [splitFirst] at h
    by_cases hsw : startsWithB pat (ch :: rest) = true
    · rw [if_pos hsw] at h
      obtain ⟨te, hte⟩ := startsWithB_exists hsw
      simp only [Option.some.injEq, Prod.mk.injEq] at h
      obtain ⟨rfl, rfl⟩ := h
      rw [hte, List.drop_left]
      simp [hte]
    · rw [if_neg hsw] at h
      cases hs : splitFirst pat rest with
      | none => rw [hs] at h; simp at h
      | some pr =>
        obtain ⟨pre', post'⟩ := pr
        rw [hs] at h
        simp only [Option.some.injEq, Prod.mk.injEq] at h
        obtain ⟨rfl, rfl⟩ := h
        have := ih hs
        simp [this, List.append_assoc]

theorem extractFenced_sound {text inner : Str}
    (h : extractFenced text = some inner) :
    ∃ pre post, text = pre ++ s "```json\n" ++ inner ++ s "\n```" ++ post := by
  rw [extractFenced] at h
  cases h1 : splitFirst (s "```json\n") text with
  | none => simp only [h1] at h; exact absurd h (by simp)
  | some pr1 =>
    obtain ⟨b1, rest⟩ := pr1
    simp only [h1] at h
    cases h2 : splitFirst (s "\n```") rest with
    | none => simp only [h2] at h; exact absurd h (by simp)
    | some pr2 =>
      obtain ⟨inner', post⟩ := pr2
      simp only [h2, Option.some.injEq] at h
      subst h
      have e1 := splitFirst_sound h1
      have e2 := splitFirst_sound h2
      refine ⟨b1, post, ?_⟩
      rw [e1, e2]
      simp [List.append_assoc]

/-- On any decoding failure the parser result carries the empty record. -/
theorem parse_structured_default_of_flag
    (decode : Str → Option DockerfileConfig) (text : Str) :
    (parse_structured decode text).2 = true →
    (parse_structured decode text).1 = emptyAnalysis := by
  rw [parse_structured]
  cases hE : extractFenced text with
  | none =>
    cases hD : decode text with
    | none => simp [hD]
    | some cfg => simp [hD]
  | some inner =>
    cases hD : decode inner with
    | none => simp [hD]
    | some cfg => simp [hD]

/-! ## Claims -/

/-- Claim C1, counterexample: `analyze_dockerfile` is NOT fail-soft for the
external call itself.  The call `model.generate_content(prompt)` (app.py
line 158) sits outside the `try` block, so when the call fails (network,
auth, quota) the exception propagates to the caller instead of an
error-carrying result being returned. -/
theorem analyze_dockerfile_call_failure_propagates :
    analyze_dockerfile (fun _ => none) (Except.error (s "503 service unavailable")) =
      Except.error (s "503 service unavailable") ∧
    analyze_dockerfile (fun _ => none) (Except.error (s "503 service unavailable")) ≠
      Except.ok (emptyAnalysis, true) :=
  ⟨rfl, fun h => Except.noConfusion h⟩

/-- Claim C1, amended: once the external call has returned a response,
`analyze_dockerfile` never raises: for every decoder and response text it
returns a result record (the empty/default record, with the parse-error flag
set, on any parse failure); when the external call itself fails, the
exception propagates to the caller unchanged. -/
theorem analyze_dockerfile_fail_soft_after_call :
    ∀ (decode : Str → Option DockerfileConfig) (call : Except Str Str),
      (∀ text, call = .ok text →
        analyze_dockerfile decode call = .ok (parse_structured decode text) ∧
        ((parse_structured decode text).2 = true →
          (parse_structured decode text).1 = emptyAnalysis)) ∧
      (∀ e, call = .error e → analyze_dockerfile decode call = .error e) := by
  intro decode call
  constructor
  · intro text hc
    subst hc
    exact ⟨rfl, parse_structured_default_of_flag decode text⟩
  · intro e hc
    subst hc
    rfl

/-- Witness for the amended claim C1. -/
theorem analyze_dockerfile_fail_soft_after_call_witness :
    analyze_dockerfile (fun _ => none) (Except.ok (s "not json at all")) =
      Except.ok (emptyAnalysis, true) ∧
    analyze_dockerfile (fun _ => none) (Except.error (s "timeout")) =
      Except.error (s "timeout") := by
  constructor
  · have h := ((analyze_dockerfile_fail_soft_after_call (fun _ => none)
      (Except.ok (s "not json at all"))).1 (s "not json at all") rfl).1
    rw [h]
    rfl
  · exact (analyze_dockerfile_fail_soft_after_call (fun _ => none)
      (Except.error (s "timeout"))).2 (s "timeout") rfl

/-- Claim C2, counterexample: the "Start Over" handler (app.py lines 347-349)
sets `k8s_step` back to 1 but does NOT clear `image_name`, `host_name` or
`dockerfile_analysis` — all three survive the restart. -/
theorem startOver_keeps_fields :
    (startOver { k8s_step := 3, image_name := some (s "my-app"), host_name := some (s "example.com"), dockerfile_analysis := some emptyAnalysis }).k8s_step = 1 ∧
    (startOver { k8s_step := 3, image_name := some (s "my-app"), host_name := some (s "example.com"), dockerfile_analysis := some emptyAnalysis }).image_name = some (s "my-app") ∧
    (startOver { k8s_step := 3, image_name := some (s "my-app"), host_name := some (s "example.com"), dockerfile_analysis := some emptyAnalysis }).host_name = some (s "example.com") ∧
    (startOver { k8s_step := 3, image_name := some (s "my-app"), host_name := some (s "example.com"), dockerfile_analysis := some emptyAnalysis }).dockerfile_analysis = some emptyAnalysis ∧
    (startOver { k8s_step := 3, image_name := some (s "my-app"), host_name := some (s "example.com"), dockerfile_analysis := some emptyAnalysis }).image_name ≠ none :=
  ⟨rfl, rfl, rfl, rfl, fun h => Option.noConfusion h⟩

/-- Claim C2, amended: the Restart transition taken from the Generate step
sets `current_step` back to Upload (`k8s_step = 1`) and leaves `image_name`,
`host_name` and `dockerfile_analysis` unchanged in the session state. -/
theorem startOver_resets_step_only :
    ∀ sess : WizardSession,
      (startOver sess).k8s_step = 1 ∧
      (startOver sess).image_name = sess.image_name ∧
      (startOver sess).host_name = sess.host_name ∧
      (startOver sess).dockerfile_analysis = sess.dockerfile_analysis :=
  fun _ => ⟨rfl, rfl, rfl, rfl⟩

/-- Claim C4: the response parser first searches the text for a fenced
` ```json ` block and decodes its contents (the fence really occurs around
the decoded body); when no such block exists it decodes the entire text;
and on any decoding failure at either step it returns the empty/default
record together with the non-fatal, user-visible parse-error flag instead
of failing the caller. -/
theorem parse_structured_spec :
    ∀ (decode : Str → Option DockerfileConfig) (text : Str),
      (∀ inner, extractFenced text = some inner →
        (∃ pre post, text = pre ++ s "```json\n" ++ inner ++ s "\n```" ++ post) ∧
        parse_structured decode text =
          (match decode inner with
           | some cfg => (cfg, false)
           | none => (emptyAnalysis, true))) ∧
      (extractFenced text = none →
        parse_structured decode text =
          (match decode text with
           | some cfg => (cfg, false)
           | none => (emptyAnalysis, true))) ∧
      ((parse_structured decode text).2 = true →
        (parse_structured decode text).1 = emptyAnalysis) := by
  intro decode text
  refine ⟨fun inner hf => ⟨extractFenced_sound hf, ?_⟩, fun hn => ?_,
    parse_structured_default_of_flag decode text⟩
  · rw [parse_structured, hf]
  · rw [parse_structured, hn]

/-- Witness for claim C4. -/
theorem parse_structured_spec_witness :
    extractFenced (s "note ```json\nX\n``` end") = some (s "X") ∧
    (∃ pre post, s "note ```json\nX\n``` end" =
      pre ++ s "```json\n" ++ s "X" ++ s "\n```" ++ post) ∧
    parse_structured (fun t => if t == s "X" then some emptyAnalysis else none)
      (s "note ```json\nX\n``` end") = (emptyAnalysis, false) ∧
    parse_structured (fun _ => none) (s "note ```json\nX\n``` end") =
      (emptyAnalysis, true) := by
  have hf : extractFenced (s "note ```json\nX\n``` end") = some (s "X") := rfl
  refine ⟨hf,
    ((parse_structured_spec (fun t => if t == s "X" then some emptyAnalysis else none)
      (s "note ```json\nX\n``` end")).1 (s "X") hf).1, ?_, ?_⟩
  · have h2 := ((parse_structured_spec
      (fun t => if t == s "X" then some emptyAnalysis else none)
      (s "note ```json\nX\n``` end")).1 (s "X") hf).2
    rw [h2]
    rfl
  · have h3 := ((parse_structured_spec (fun _ => none)
      (s "note ```json\nX\n``` end")).1 (s "X") hf).2
    rw [h3]

/-- Claim C5: the Configure → Generate transition fires exactly when both
`image_name` and `host_name` are non-empty — the session advances to step 3
(Generate) storing both fields; otherwise (in particular with an empty
host name) the session is left unchanged, so `current_step` remains
Configure, and the validation error is surfaced. -/
theorem configure_to_generate :
    ∀ (sess : WizardSession) (image_name host_name : Str),
      (image_name ≠ [] → host_name ≠ [] →
        generateFilesButton sess image_name host_name =
          ({ sess with image_name := some image_name,
                       host_name := some host_name, k8s_step := 3 }, false)) ∧
      (image_name = [] ∨ host_name = [] →
        generateFilesButton sess image_name host_name = (sess, true)) := by
  intro sess i h
  refine ⟨fun hi hh => ?_, fun hor => ?_⟩
  · have hi' : i.isEmpty = false := by
      cases i with
      | nil => exact absurd rfl hi
      | cons c cs => rfl
    have hh' : h.isEmpty = false := by
      cases h with
      | nil => exact absurd rfl hh
      | cons c cs => rfl
    rw [generateFilesButton, hi', hh']
    rfl
  · rcases hor with rfl | rfl
    · rfl
    · simp [generateFilesButton]

/-- Witness for claim C5. -/
theorem configure_to_generate_witness :
    generateFilesButton { k8s_step := 2 } (s "my-app") (s "example.com") =
      ({ k8s_step := 3, image_name := some (s "my-app"),
         host_name := some (s "example.com") }, false) ∧
    generateFilesButton { k8s_step := 2 } (s "my-app") [] =
      ({ k8s_step := 2 }, true) :=
  ⟨(configure_to_generate { k8s_step := 2 } (s "my-app") (s "example.com")).1
      (by simp [s]) (by simp [s]),
   (configure_to_generate { k8s_step := 2 } (s "my-app") []).2 (Or.inr rfl)⟩

/-- Claim C6: whenever some line of the (case-normalized) content, after
stripping leading whitespace, starts with one of the fixed Dockerfile
keywords, `is_dockerfile` accepts the file and the classifier returns
`Dockerfile`, regardless of the file name (hence of its extension). -/
theorem keyword_line_is_dockerfile :
    ∀ (file_name file_content : Str),
      (splitLines (pyUpper file_content)).any
        (fun line => dockerfile_keywords.any
          (fun k => startsWithB k (stripLeft line))) = true →
      is_dockerfile file_name file_content = true ∧
      classify file_name file_content = FileClass.Dockerfile := by
  intro n c h
  have h2 := hasDockerKeywordLine_of_stripLeft h
  have h3 : is_dockerfile n c = true := by
    rw [is_dockerfile, h2, Bool.or_true]
  exact ⟨h3, by rw [classify, if_pos h3]⟩

/-- Witness for claim C6: content starting with `FROM ` is classified as a
Dockerfile even under the unrelated file name `notes.txt`. -/
theorem keyword_line_is_dockerfile_witness :
    ((splitLines (pyUpper (s "FROM ubuntu:20.04\nRUN make"))).any
      (fun line => dockerfile_keywords.any
        (fun k => startsWithB k (stripLeft line))) = true) ∧
    is_dockerfile (s "notes.txt") (s "FROM ubuntu:20.04\nRUN make") = true ∧
    classify (s "notes.txt") (s "FROM ubuntu:20.04\nRUN make") =
      FileClass.Dockerfile := by
  refine ⟨by decide, ?_, ?_⟩
  · exact (keyword_line_is_dockerfile (s "notes.txt")
      (s "FROM ubuntu:20.04\nRUN make") (by decide)).1
  · exact (keyword_line_is_dockerfile (s "notes.txt")
      (s "FROM ubuntu:20.04\nRUN make") (by decide)).2

/-- Claim C7: a file whose name ends in one of the supported configuration
extensions and whose content has no Dockerfile-keyword-prefixed line is
classified `ConfigFile` (accepted as a supported configuration file, not
`Dockerfile` and not `Unsupported`). -/
theorem config_extension_yields_configfile :
    ∀ (file_name file_content : Str),
      supportedExtensions.any (fun e => endsWithB e file_name) = true →
      hasDockerKeywordLine file_content = false →
      classify file_name file_content = FileClass.ConfigFile := by
  intro n c hext hkw
  have hname := ext_not_dockerfile_name hext
  have hdf : is_dockerfile n c = false := by
    rw [is_dockerfile, hname, hkw]
    rfl
  rw [classify, if_neg (by simp [hdf]), if_pos hext]

/-- Witness for claim C7. -/
theorem config_extension_yields_configfile_witness :
    supportedExtensions.any (fun e => endsWithB e (s "config.yaml")) = true ∧
    hasDockerKeywordLine (s "key: value") = false ∧
    classify (s "config.yaml") (s "key: value") = FileClass.ConfigFile :=
  ⟨by decide, by decide,
   config_extension_yields_configfile (s "config.yaml") (s "key: value")
     (by decide) (by decide)⟩

/-- Mapping an environment-variable record through the rebuild of app.py
line 61 is the identity. -/
theorem envVar_map_eta (evs : List EnvVar) :
    evs.map (fun e => ({ name := e.name, value := e.value } : EnvVar)) = evs := by
  induction evs with
  | nil => rfl
  | cons e es ih => simp [ih]

/-- Claim C8, counterexample: an analysis record whose `command` field is
PRESENT but holds the empty string is falsy in Python, so `if command:`
(app.py line 64) skips it — no `command` key is added and no command line is
emitted, although the field is present. -/
theorem command_present_but_omitted :
    ({ command := some (PyCommand.str []) } : DockerfileConfig).command ≠ none ∧
    (buildContainerSpec (s "app") { command := some (PyCommand.str []) }).command = none ∧
    linesValues (s "        command: ")
      (deploymentLines (s "app") { command := some (PyCommand.str []) }) = [] :=
  ⟨fun h => Option.noConfusion h, rfl, rfl⟩

/-- Claim C8, amended: `generate_deployment_yaml` emits one container named
and imaged as `image_name`, with one `containerPort` entry per port of
`analysis.ports` in the same order (default `[80]` when the field is
absent); the `env` list is built from `analysis.env_vars` exactly when that
list is non-empty and the field is omitted entirely when it is empty; and
when `analysis.command` is present AND non-empty (truthy) a `command` list
appears, a single non-empty string being wrapped as a one-element sequence
(a present but empty command is omitted, see the counterexample). -/
theorem deployment_container_spec :
    ∀ (i : Str) (cfg : DockerfileConfig),
      generate_deployment_yaml i cfg = joinNL (deploymentLines i cfg) ∧
      (buildContainerSpec i cfg).name = i ∧
      (buildContainerSpec i cfg).image = i ∧
      (buildContainerSpec i cfg).ports = cfg.ports.getD [80] ∧
      (cfg.ports = none → (buildContainerSpec i cfg).ports = [80]) ∧
      linesValues (s "        ports: ") (deploymentLines i cfg) =
        [pyStrList ((cfg.ports.getD [80]).map portDictStr)] ∧
      (cfg.env_vars.getD [] = [] →
        (buildContainerSpec i cfg).env = none ∧
        linesValues (s "        env: ") (deploymentLines i cfg) = []) ∧
      (∀ evs, cfg.env_vars = some evs → evs ≠ [] →
        (buildContainerSpec i cfg).env = some evs ∧
        linesValues (s "        env: ") (deploymentLines i cfg) =
          [pyStrList (evs.map envDictStr)]) ∧
      (cfg.command = none →
        (buildContainerSpec i cfg).command = none ∧
        linesValues (s "        command: ") (deploymentLines i cfg) = []) ∧
      (∀ c, cfg.command = some (PyCommand.str c) → c ≠ [] →
        (buildContainerSpec i cfg).command = some [c] ∧
        linesValues (s "        command: ") (deploymentLines i cfg) =
          [pyStrList [pyReprStr c]]) ∧
      (∀ cl, cfg.command = some (PyCommand.list cl) → cl ≠ [] →
        (buildContainerSpec i cfg).command = some cl) := by
  intro i cfg
  refine ⟨deployment_text_eq i cfg, rfl, rfl, rfl, fun hp => ?_,
    dep_values_ports i cfg, fun he => ?_, fun evs hev hne => ?_,
    fun hc => ?_, fun c hc hne => ?_, fun cl hc hne => ?_⟩
  · rw [show (buildContainerSpec i cfg).ports = cfg.ports.getD [80] from rfl, hp]
    rfl
  · have henv : (buildContainerSpec i cfg).env = none := by
      simp [buildContainerSpec, he]
    exact ⟨henv, by rw [dep_values_env, henv]⟩
  · have henv : (buildContainerSpec i cfg).env = some evs := by
      cases evs with
      | nil => exact absurd rfl hne
      | cons v vs => simp [buildContainerSpec, hev, envVar_map_eta]
    exact ⟨henv, by rw [dep_values_env, henv]⟩
  · have hcm : (buildContainerSpec i cfg).command = none := by
      simp [buildContainerSpec, hc]
    exact ⟨hcm, by rw [dep_values_command, hcm]⟩
  · have hcm : (buildContainerSpec i cfg).command = some [c] := by
      cases c with
      | nil => exact absurd rfl hne
      | cons a as => simp [buildContainerSpec, hc]
    refine ⟨hcm, ?_⟩
    rw [dep_values_command, hcm]
    rfl
  · cases cl with
    | nil => exact absurd rfl hne
    | cons a as => simp [buildContainerSpec, hc]

/-- Witness for the amended claim C8. -/
theorem deployment_container_spec_witness :
    (buildContainerSpec (s "app") {}).ports = [80] ∧
    linesValues (s "        env: ") (deploymentLines (s "app") {}) = [] ∧
    linesValues (s "        command: ") (deploymentLines (s "app") {}) = [] ∧
    (buildContainerSpec (s "app")
      { ports := some [80, 443], env_vars := some [{ name := s "A", value := s "B" }], command := some (PyCommand.str (s "run.sh")) }).ports = [80, 443] ∧
    linesValues (s "        ports: ") (deploymentLines (s "app")
      { ports := some [80, 443], env_vars := some [{ name := s "A", value := s "B" }], command := some (PyCommand.str (s "run.sh")) }) =
      [pyStrList (([80, 443] : List Int).map portDictStr)] ∧
    (buildContainerSpec (s "app")
      { ports := some [80, 443], env_vars := some [{ name := s "A", value := s "B" }], command := some (PyCommand.str (s "run.sh")) }).env =
      some [{ name := s "A", value := s "B" }] ∧
    (buildContainerSpec (s "app")
      { ports := some [80, 443], env_vars := some [{ name := s "A", value := s "B" }], command := some (PyCommand.str (s "run.sh")) }).command =
      some [s "run.sh"] ∧
    linesValues (s "        command: ") (deploymentLines (s "app")
      { ports := some [80, 443], env_vars := some [{ name := s "A", value := s "B" }], command := some (PyCommand.str (s "run.sh")) }) =
      [pyStrList [pyReprStr (s "run.sh")]] := by
  have W1 := deployment_container_spec (s "app") {}
  have W2 := deployment_container_spec (s "app")
    { ports := some [80, 443], env_vars := some [{ name := s "A", value := s "B" }], command := some (PyCommand.str (s "run.sh")) }
  refine ⟨W1.2.2.2.2.1 rfl, (W1.2.2.2.2.2.2.1 rfl).2,
    (W1.2.2.2.2.2.2.2.2.1 rfl).2, W2.2.2.2.1, W2.2.2.2.2.2.1, ?_, ?_, ?_⟩
  · exact (W2.2.2.2.2.2.2.2.1 [{ name := s "A", value := s "B" }] rfl (by simp)).1
  · exact (W2.2.2.2.2.2.2.2.2.2.1 (s "run.sh") rfl (by decide)).1
  · exact (W2.2.2.2.2.2.2.2.2.2.1 (s "run.sh") rfl (by decide)).2

/-- Claim C9: `generate_service_yaml` emits a Service manifest of type
ClusterIP containing exactly one port-mapping entry per port of
`analysis.ports` (in order), each entry mapping external `port` and
`targetPort` both to that same port, defaulting to the single port 80 when
the `ports` field is absent. -/
theorem service_manifest_ports :
    ∀ (i : Str) (cfg : DockerfileConfig),
      generate_service_yaml i cfg = joinNL (serviceLines i (cfg.ports.getD [80])) ∧
      linesValues (s "      port: ") (serviceLines i (cfg.ports.getD [80])) =
        (cfg.ports.getD [80]).map intStr ∧
      linesValues (s "      targetPort: ") (serviceLines i (cfg.ports.getD [80])) =
        (cfg.ports.getD [80]).map intStr ∧
      ((serviceLines i (cfg.ports.getD [80])).filter
        (fun l => l == s "    - protocol: TCP")).length =
        (cfg.ports.getD [80]).length ∧
      s "  type: ClusterIP" ∈ serviceLines i (cfg.ports.getD [80]) ∧
      (cfg.ports = none → cfg.ports.getD [80] = [80]) := by
  intro i cfg
  refine ⟨service_text_eq i cfg, linesValues_service_port i _,
    linesValues_service_targetPort i _, service_entry_count i _, ?_,
    fun hp => ?_⟩
  · simp [serviceLines]
  · rw [hp]
    rfl

/-- Witness for claim C9, at an analysis record with the `ports` field
absent: the single default entry maps port 80 to target port 80. -/
theorem service_manifest_ports_witness :
    generate_service_yaml (s "app") {} = joinNL (serviceLines (s "app") [80]) ∧
    linesValues (s "      port: ") (serviceLines (s "app") [80]) = [intStr 80] ∧
    linesValues (s "      targetPort: ") (serviceLines (s "app") [80]) =
      [intStr 80] ∧
    ((serviceLines (s "app") [80]).filter
      (fun l => l == s "    - protocol: TCP")).length = 1 ∧
    s "  type: ClusterIP" ∈ serviceLines (s "app") [80] ∧
    ({} : DockerfileConfig).ports.getD [80] = [80] := by
  have W := service_manifest_ports (s "app") {}
  exact ⟨W.1, W.2.1, W.2.2.1, W.2.2.2.1, W.2.2.2.2.1, W.2.2.2.2.2 rfl⟩

/-- Claim C10: the three manifests are mutually consistent by construction —
the Ingress routes to the backend service named `<image_name>-service`,
which is exactly the Service's metadata name for the same image name, and
the Service's selector label `app: <image_name>` is exactly the Deployment's
matchLabels selector and pod-template label for the same image name. -/
theorem manifests_cross_consistent :
    ∀ (i host : Str) (cfg : DockerfileConfig),
      generate_deployment_yaml i cfg = joinNL (deploymentLines i cfg) ∧
      generate_service_yaml i cfg = joinNL (serviceLines i (cfg.ports.getD [80])) ∧
      generate_ingress_yaml i host = joinNL (ingressLines i host) ∧
      linesValues (s "            name: ") (ingressLines i host) =
        [i ++ s "-service"] ∧
      linesValues (s "  name: ") (serviceLines i (cfg.ports.getD [80])) =
        [i ++ s "-service"] ∧
      linesValues (s "            name: ") (ingressLines i host) =
        linesValues (s "  name: ") (serviceLines i (cfg.ports.getD [80])) ∧
      linesValues (s "    app: ") (serviceLines i (cfg.ports.getD [80])) = [i] ∧
      linesValues (s "      app: ") (deploymentLines i cfg) = [i] ∧
      linesValues (s "        app: ") (deploymentLines i cfg) = [i] ∧
      linesValues (s "      app: ") (deploymentLines i cfg) =
        linesValues (s "    app: ") (serviceLines i (cfg.ports.getD [80])) := by
  intro i host cfg
  refine ⟨deployment_text_eq i cfg, service_text_eq i cfg, ingress_text_eq i host,
    ingress_backend_value i host, service_meta_name_value i _, ?_,
    service_selector_value i _, dep_values_app6 i cfg, dep_values_app8 i cfg, ?_⟩
  · rw [ingress_backend_value, service_meta_name_value]
  · rw [dep_values_app6, service_selector_value]

set_option maxRecDepth 40000 in
/-- Claim C3 (code bug): at the failing input `image_name = "my-app"` with
the empty/default analysis record, the deployment text merges the first
container key onto the `- ` line with 8 extra spaces of indentation (key
column 16) while the following container keys sit at column 8, violating the
YAML block-mapping alignment rule (`containerKeysAligned`), so the emitted
deployment manifest is not syntactically valid YAML text. -/
theorem deployment_yaml_misindented :
    generate_deployment_yaml (s "my-app") emptyAnalysis =
      s "\napiVersion: apps/v1\nkind: Deployment\nmetadata:\n  name: my-app-deployment\nspec:\n  replicas: 1\n  selector:\n    matchLabels:\n      app: my-app\n  template:\n    metadata:\n      labels:\n        app: my-app\n    spec:\n      containers:\n      -         name: my-app\n        image: my-app\n        ports: [\x7b\x27containerPort\x27: 80\x7d]\n" ∧
    s "      -         name: my-app" ∈ deploymentLines (s "my-app") emptyAnalysis ∧
    s "        image: my-app" ∈ deploymentLines (s "my-app") emptyAnalysis ∧
    containerKeysAligned (deploymentLines (s "my-app") emptyAnalysis) = false := by
  refine ⟨by decide, by decide, by decide, by decide⟩
